import Mathlib

/-!
# Okta credential backend: configuration path and client shim

A shallow embedding of `builtin/credential/okta/path_config.go`.

Go strings are Lean strings, byte slices are lists of byte values, a Go
`(value, error)` pair whose value is meaningless on error is an `Except`, and a
pair whose two halves are both meaningful is kept as a pair of options.  Code the
file calls but does not define (the Go standard library, the two Okta SDK
generations, the cache library, the token helper of the SDK) is either modelled
by a small definition with a doc comment saying so, or taken as a field of the
environment `Env`, so that every theorem holds whatever those collaborators do.
A Go error is represented by its message, and the messages of library errors
are abbreviated.  Instants and durations are integers counting nanoseconds.
-/

namespace Okta

/-! ## Constants and small helpers -/

def defaultBaseURL : String := "okta.com"

def previewBaseURL : String := "oktapreview.com"

/-- Byte slices. -/
abbrev Bytes := List Nat

/-- Go's `strings.HasPrefix`. -/
def HasPrefix (s p : String) : Bool := p.data.isPrefixOf s.data

/-- Go's `strings.Contains`. -/
def Contains (s sub : String) : Bool := decide (sub.data <:+: s.data)

/-- Go's `time.Second`, a `time.Duration` counted in nanoseconds. -/
def Second : Int := 1000000000

/-! ## Token parameters (embedded `tokenutil.TokenParams`) -/

/-- Modelled from the spec: the shared token-configuration type
`tokenutil.TokenParams` is not under src/; the spec names its token-issuance
parameters (TTL bounds, policies).  Durations are nanoseconds. -/
structure TokenParams where
  TokenBoundCIDRs : List String
  TokenExplicitMaxTTL : Int
  TokenMaxTTL : Int
  TokenNoDefaultPolicy : Bool
  TokenNumUses : Int
  TokenPeriod : Int
  TokenPolicies : List String
  TokenType : Nat
  TokenTTL : Int
  deriving DecidableEq, Repr

/-- ConfigEntry for Okta (source lines 486-497); `Production` is the `*bool`. -/
structure ConfigEntry where
  TokenParams : TokenParams
  Org : String
  Token : String
  BaseURL : String
  Production : Option Bool
  TTL : Int
  MaxTTL : Int
  BypassOktaMFA : Bool
  deriving DecidableEq, Repr

/-- The Go zero value `ConfigEntry{}`. -/
def ConfigEntry.zero : ConfigEntry :=
  { TokenParams :=
      { TokenBoundCIDRs := [], TokenExplicitMaxTTL := 0, TokenMaxTTL := 0,
        TokenNoDefaultPolicy := false, TokenNumUses := 0, TokenPeriod := 0,
        TokenPolicies := [], TokenType := 0, TokenTTL := 0 },
    Org := "", Token := "", BaseURL := "", Production := none,
    TTL := 0, MaxTTL := 0, BypassOktaMFA := false }

/-! ## HTTP requests and responses -/

/-- Go's `http.Header` restricted to what the file does with it: an ordered
multi-map of already canonical keys. -/
abbrev Header := List (String × String)

/-- Go's `Header.Add`: append a value under the key. -/
def Header.Add (h : Header) (k v : String) : Header := h ++ [(k, v)]

/-- Go's `Header.Set`: replace every value under the key by this one. -/
def Header.Set (h : Header) (k v : String) : Header :=
  h.filter (fun kv => !(kv.1 == k)) ++ [(k, v)]

/-- Go's `Header.Values`: the values stored under the key, in order. -/
def Header.Values (h : Header) (k : String) : List String :=
  (h.filter (fun kv => kv.1 == k)).map (fun kv => kv.2)

/-- An `*http.Request`: method, parsed URL, headers, body bytes. -/
structure Request (U : Type) where
  Method : String
  URL : U
  Header : Header
  Body : Option Bytes

/-- A response body stream: what `io.ReadAll` returns for it, bytes and error
together (the bytes read before a failure are returned with the error). -/
structure Body where
  data : Bytes
  readErr : Option String
  deriving DecidableEq, Repr

/-- An `*http.Response`; `Body = none` is the nil body. -/
structure HTTPResponse where
  StatusCode : Int
  ContentLength : Int
  Body : Option Body
  deriving DecidableEq, Repr

/-! ## The credential cache (`github.com/patrickmn/go-cache`) -/

/-- The constant `gocache.NoExpiration`. -/
def NoExpiration : Int := -1

/-- The constant `gocache.DefaultExpiration`. -/
def DefaultExpiration : Int := 0

/-- A cache item: the stored object and its expiry instant in nanoseconds,
`0` meaning that the item never expires. -/
structure Item where
  Object : String
  Expiration : Int
  deriving DecidableEq, Repr

/-- The cache: its default expiration, its janitor period and its items. -/
structure Cache where
  defaultExpiration : Int
  cleanupInterval : Int
  items : List (String × Item)
  deriving DecidableEq, Repr

/-- The call `gocache.New(defaultExpiration, cleanupInterval)` of the third-party
cache library, which is not under src/, as the library documents it: a default
expiration of `0` (`DefaultExpiration`) is replaced by `NoExpiration`, and the
second argument is the period of the janitor that sweeps expired items. -/
def gocacheNew (defaultExpiration cleanupInterval : Int) : Cache :=
  { defaultExpiration := if defaultExpiration = 0 then NoExpiration else defaultExpiration,
    cleanupInterval := cleanupInterval,
    items := [] }

/-- The library's `Cache.Set(k, x, d)` at instant `now`; a duration
equal to `DefaultExpiration` stands for the cache's default, and only a positive
duration gives the item an expiry instant. -/
def Cache.Set (c : Cache) (now : Int) (k : String) (x : String) (d : Int) : Cache :=
  let d := if d = DefaultExpiration then c.defaultExpiration else d
  let e := if d > 0 then now + d else 0
  { c with items := (k, { Object := x, Expiration := e }) :: c.items.filter (fun kv => !(kv.1 == k)) }

/-- The library's `Cache.Get(k)` at instant `now`; an item is withheld
only when it has an expiry instant and that instant has passed. -/
def Cache.Get (c : Cache) (now : Int) (k : String) : Option String :=
  match c.items.lookup k with
  | none => none
  | some item =>
    if item.Expiration > 0 ∧ now > item.Expiration then none else some item.Object

/-- The library's `Cache.DeleteExpired()` at instant `now`, which the
janitor runs once every `cleanupInterval`. -/
def Cache.DeleteExpired (c : Cache) (now : Int) : Cache :=
  { c with items := c.items.filter (fun kv => !(decide (kv.2.Expiration > 0 ∧ now > kv.2.Expiration))) }

/-- The cache after the janitor has swept at each of the instants, in order. -/
def Cache.sweeps (c : Cache) (instants : List Int) : Cache :=
  instants.foldl Cache.DeleteExpired c

/-! ## The new-generation SDK configuration -/

/-- The fields of `oktanew.Configuration` (`cfg.Okta.Client.*`) that the file reads. -/
structure Configuration where
  OrgUrl : String
  Token : String
  AuthorizationMode : String
  PrivateKey : String
  PrivateKeyId : String
  ClientId : String
  Scopes : List String
  ClientAssertion : String
  MaxRetries : Int
  MaxBackoff : Int
  deriving DecidableEq, Repr

/-- A `ConfigSetter` of the SDK. -/
abbrev ConfigSetter := Configuration → Configuration

/-- The setter `oktanew.WithOrgUrl`. -/
def WithOrgUrl (u : String) : ConfigSetter := fun c => { c with OrgUrl := u }

/-- The setter `oktanew.WithToken`. -/
def WithToken (t : String) : ConfigSetter := fun c => { c with Token := t }

/-- The SDK's configuration before any setter runs: authorization mode `SSWS`
(the default the comment at source lines 346-348 relies on), everything else empty. -/
def defaultConfiguration : Configuration :=
  { OrgUrl := "", Token := "", AuthorizationMode := "SSWS", PrivateKey := "",
    PrivateKeyId := "", ClientId := "", Scopes := [], ClientAssertion := "",
    MaxRetries := 0, MaxBackoff := 0 }

/-! ## Storage, field data and responses (the framework around the path) -/

/-- Modelled from the spec: `logical.StorageEntry` is not under src/; the spec
gives the stored record as the JSON of the configuration.  An entry is the JSON
of a configuration entry, or bytes that `DecodeJSON` refuses with the given error. -/
inductive StorageEntry where
  | json (c : ConfigEntry)
  | corrupt (err : String)
  deriving DecidableEq, Repr

/-- Modelled from the spec: the interface `logical.Storage` is not under src/;
the spec names it a persisted key-value store with get/put semantics.  It holds
the stored entries, and the error `Get` or `Put` fails with when the store is
failing. -/
structure Storage where
  entries : List (String × StorageEntry)
  getErr : Option String
  putErr : Option String
  deriving DecidableEq, Repr

/-- Modelled from the spec: the storage's `Get`, the entry last put under the key. -/
def Storage.Get (s : Storage) (key : String) : Except String (Option StorageEntry) :=
  match s.getErr with
  | some err => .error err
  | none => .ok (s.entries.lookup key)

/-- Modelled from the spec: the storage's `Put`, which replaces the entry under the key. -/
def Storage.Put (s : Storage) (key : String) (e : StorageEntry) : Except String Storage :=
  match s.putErr with
  | some err => .error err
  | none => .ok { s with entries := (key, e) :: s.entries.filter (fun kv => !(kv.1 == key)) }

/-- Modelled from the spec: the entry's `DecodeJSON` into a fresh `ConfigEntry`,
which gives back the entry that was encoded. -/
def StorageEntry.DecodeJSON : StorageEntry → Except String ConfigEntry
  | .json c => .ok c
  | .corrupt err => .error err

/-- Modelled from the spec: the call `logical.StorageEntryJSON("config", cfg)`,
the JSON of the entry. -/
def StorageEntryJSON (cfg : ConfigEntry) : Except String StorageEntry := .ok (.json cfg)

/-- The operations the path is registered for (source lines 96-115). -/
inductive Operation where
  | ReadOperation
  | CreateOperation
  | UpdateOperation
  deriving DecidableEq, Repr

/-- The part of `*logical.Request` the handlers read. -/
structure LogicalRequest where
  Operation : Operation
  Storage : Storage
  deriving DecidableEq, Repr

/-- Modelled from the spec: `framework.FieldData` is not under src/; the spec
names it the schema layer that parses incoming configuration fields.  For each
field of the schema (source lines 40-94) it holds what `GetOk` returns, `none`
when the field was not supplied; the token fields, `ttl` and `max_ttl` are kept
raw for the token helper. -/
structure FieldData where
  organization : Option String
  org_name : Option String
  token : Option String
  api_token : Option String
  base_url : Option String
  production : Option Bool
  bypass_okta_mfa : Option Bool
  tokenRaw : List (String × String)
  deriving DecidableEq, Repr

/-- The values a response map holds. -/
inductive Value where
  | str (s : String)
  | bool (b : Bool)
  | int (i : Int)
  | strs (l : List String)
  deriving DecidableEq, Repr

/-- A Go `map[string]interface{}`. -/
abbrev Data := List (String × Value)

/-- The assignment `m[k] = v`. -/
def Data.set (m : Data) (k : String) (v : Value) : Data :=
  (k, v) :: m.filter (fun kv => !(kv.1 == k))

/-- The lookup `m[k]`, `none` when the key is absent. -/
def Data.get (m : Data) (k : String) : Option Value := m.lookup k

/-- Modelled from the spec: `logical.Response` is not under src/.  A response
is its data map (`none` for a nil map) and its warnings. -/
structure Response where
  Data : Option Data
  Warnings : List String
  deriving DecidableEq, Repr

/-- Modelled from the spec: the call `logical.ErrorResponse(text)`, a response
whose data map holds the text under the key `error`. -/
def ErrorResponse (text : String) : Response :=
  { Data := some [("error", .str text)], Warnings := [] }

/-- Modelled from the spec: the error `logical.ErrInvalidRequest`, by its text. -/
def ErrInvalidRequest : String := "invalid request"

/-- The warning both handlers attach when the MFA bypass is on. -/
def bypassWarning : String :=
  "Okta MFA bypass is configured. In addition to ignoring Okta MFA requests, certain other account statuses will not be seen, such as PASSWORD_EXPIRED. Authentication will succeed in these cases."

/-- Modelled from the spec: the method `logical.TokenType.String` on the numeric
token type. -/
def tokenTypeString (t : Nat) : String :=
  match t with
  | 0 => "default"
  | 1 => "service"
  | 2 => "batch"
  | 3 => "default-service"
  | 4 => "default-batch"
  | _ => "unknown"

/-- Modelled from the spec: `tokenutil.TokenParams.PopulateTokenData` is not
under src/; the spec names the token-issuance parameters (TTL bounds, policies)
of the shared token-configuration type.  It writes the `token_*` keys of the
token parameters into the map and no other key; `seconds` is the conversion
`int64(d.Seconds())` of a duration. -/
def PopulateTokenData (seconds : Int → Int) (t : TokenParams) (m : Data) : Data :=
  let m := m.set "token_bound_cidrs" (.strs t.TokenBoundCIDRs)
  let m := m.set "token_explicit_max_ttl" (.int (seconds t.TokenExplicitMaxTTL))
  let m := m.set "token_max_ttl" (.int (seconds t.TokenMaxTTL))
  let m := m.set "token_no_default_policy" (.bool t.TokenNoDefaultPolicy)
  let m := m.set "token_period" (.int (seconds t.TokenPeriod))
  let m := m.set "token_policies" (.strs t.TokenPolicies)
  let m := m.set "token_type" (.str (tokenTypeString t.TokenType))
  let m := m.set "token_ttl" (.int (seconds t.TokenTTL))
  let m := m.set "token_num_uses" (.int t.TokenNumUses)
  m

/-! ## Authorization strategies and the collaborators -/

/-- The body argument of `NewRequest` (`body interface{}`), by the cases of the
type switch: a byte slice, a `*bytes.Buffer`, or any other value. -/
inductive BodyArg (V : Type) where
  | bytes (v : Bytes)
  | buffer (v : Bytes)
  | value (v : V)

/-- What `oktanew.PrivateKeyAuthConfig` is filled with at source lines 355-367,
the cache, the HTTP client, the signer and the request apart. -/
structure PrivateKeyAuthConfig where
  PrivateKey : String
  PrivateKeyId : String
  ClientId : String
  OrgURL : String
  Scopes : List String
  MaxRetries : Int
  MaxBackoff : Int
  deriving DecidableEq, Repr

/-- What `oktanew.JWTAuthConfig` is filled with at source lines 369-378, the
cache, the HTTP client and the request apart. -/
structure JWTAuthConfig where
  OrgURL : String
  Scopes : List String
  ClientAssertion : String
  MaxRetries : Int
  MaxBackoff : Int
  deriving DecidableEq, Repr

/-- The value of the Go interface `oktanew.Authorization` built by `NewRequest`. -/
inductive Authorization where
  | ssws (token : String)
  | bearer (token : String)
  | privateKey (c : PrivateKeyAuthConfig)
  | jwt (c : JWTAuthConfig)
  deriving DecidableEq, Repr

/-- The collaborators the file calls and does not define.  Every theorem below
is stated for an arbitrary `Env`. -/
structure Env where
  /-- Go's `*url.URL`. -/
  URL : Type
  /-- The legacy SDK's `*oktaold.Client`. -/
  OldClient : Type
  /-- Go's `context.Context`. -/
  Context : Type
  /-- Values handed to `NewRequest` as a body to encode. -/
  Value : Type
  /-- The destination `v` that `Do` decodes into. -/
  Dest : Type
  /-- What `url.Parse` does once the control-character check has passed. -/
  parseRest : String → Except String URL
  /-- The call `oktaold.NewClientWithDomain(cleanhttp.DefaultClient(), org, domain, token)`. -/
  NewClientWithDomain : String → String → String → Except String OldClient
  /-- The legacy client's `NewRequest`. -/
  oldNewRequest : OldClient → String → String → Option (BodyArg Value) → Except String (Request URL)
  /-- The legacy client's `Do`: result, error and destination afterwards. -/
  oldDo : OldClient → Request URL → Dest → (Option HTTPResponse × Option String) × Dest
  /-- A `json.Encoder` with HTML escaping off, `Encode`. -/
  jsonEncode : Value → Except String Bytes
  /-- What `json.Unmarshal(bt, v)` does on input that is not empty: the
  destination afterwards, and the error. -/
  jsonDecode : Bytes → Dest → Dest × Option String
  /-- What the transport of `cfg.HTTPClient` answers to a request. -/
  transport : Request URL → Except String HTTPResponse
  /-- The conversion `int64(d.Seconds())` of a duration, which Go computes
  through a `float64`. -/
  Seconds : Int → Int
  /-- The credential derivation of the private-key and JWT strategies, called
  with the cache, the method and the URL: the headers it adds to the request, or
  the error, and the cache afterwards. -/
  derive : Authorization → Cache → String → String → Except String Header × Cache
  /-- The assignment `u.Host = removeEmptyPort(u.Host)` of `http.NewRequest`. -/
  removeEmptyPort : URL → URL
  /-- The call `cfg.ParseTokenFields(req, d)` on the embedded token parameters:
  the parameters afterwards, or the error. -/
  ParseTokenFields : LogicalRequest → FieldData → TokenParams → Except String TokenParams
  /-- The call `tokenutil.UpgradeValue(d, old, new, &oldVal, &newVal)`: the two
  values afterwards, or the error. -/
  UpgradeValue : FieldData → String → String → Int → Int → Except String (Int × Int)

/-! ## Go standard library: `url.Parse` and `http.NewRequest` -/

/-- The standard library's `stringContainsCTLByte`: some byte is below `0x20` or is `0x7f`. -/
def stringContainsCTLByte (s : String) : Bool :=
  s.data.any (fun c => decide (c.toNat < 32) || decide (c.toNat = 127))

/-- Go's `url.Parse`: the text before the first `#` is refused when it holds an
ASCII control character; the rest of the parsing is the collaborator's. -/
def urlParse (E : Env) (rawURL : String) : Except String E.URL :=
  let u := String.mk (rawURL.data.takeWhile (fun c => !(c == '#')))
  if stringContainsCTLByte u then .error "net/url: invalid control character in URL"
  else E.parseRest rawURL

/-- The call `oktanew.NewConfiguration(setters...)` of the third-party SDK, which
is not under src/: it starts from the SDK default, applies the setters in order
and returns the error of `url.Parse` when the organisation URL does not parse.
The SDK also reads `okta.yaml` and the process environment before the setters
run; they are not inputs of this embedding, which is the SDK in a clean
environment. -/
def NewConfiguration (E : Env) (setters : List ConfigSetter) : Except String Configuration :=
  let cfg := setters.foldl (fun c f => f c) defaultConfiguration
  match urlParse E cfg.OrgUrl with
  | .error err => .error err
  | .ok _ => .ok cfg

/-- Go's `json.Unmarshal(bt, v)`: empty input is refused before the destination
is touched; other input is the collaborator's. -/
def jsonUnmarshal (E : Env) (bt : Bytes) (v : E.Dest) : E.Dest × Option String :=
  if bt = [] then (v, some "unexpected end of JSON input") else E.jsonDecode bt v

/-- Go's `(*http.Client).Do(req)` on `cfg.HTTPClient`: the answer of the transport,
where the client never hands out a nil body: it returns an error when the
response announces content without a body, and puts an empty reader in place of
a nil body otherwise. -/
def httpClientDo (E : Env) (req : Request E.URL) : Except String HTTPResponse :=
  match E.transport req with
  | .error err => .error err
  | .ok resp =>
    match resp.Body with
    | some _ => .ok resp
    | none =>
      if resp.ContentLength > 0 ∧ req.Method ≠ "HEAD" then
        .error "http: RoundTripper returned a response with content length but a nil Body"
      else .ok { resp with Body := some { data := [], readErr := none } }

/-- The token characters of `httpguts.IsTokenRune`: ASCII letters, digits and
the marks ``! # $ % & ' * + - . ^ _ ` | ~``. -/
def isTokenRune (c : Char) : Bool :=
  c.isAlphanum || [33, 35, 36, 37, 38, 39, 42, 43, 45, 46, 94, 95, 96, 124, 126].contains c.toNat

/-- The standard library's `validMethod`. -/
def validMethod (method : String) : Bool :=
  decide (method.length > 0) && method.data.all isTokenRune

/-- Go's `http.NewRequest(method, url, body)`: an empty method means `GET`, an
invalid method or an unparsable URL is an error, the parsed URL loses an empty
port, and the new request has no header. -/
def httpNewRequest (E : Env) (method url : String) (body : Option Bytes) :
    Except String (Request E.URL) :=
  let method := if method = "" then "GET" else method
  if !validMethod method then .error ("net/http: invalid method " ++ method)
  else
    match urlParse E url with
    | .error err => .error err
    | .ok u => .ok { Method := method, URL := E.removeEmptyPort u, Header := [], Body := body }

/-! ## The shim (source lines 296-433) -/

/-- The SDK's `*oktanew.APIClient`, which `NewAPIClient(cfg)` binds to its configuration. -/
structure APIClient where
  cfg : Configuration
  deriving DecidableEq, Repr

/-- The SDK's `oktanew.NewAPIClient`. -/
def NewAPIClient (cfg : Configuration) : APIClient := { cfg := cfg }

/-- The struct `oktaShimNew` (source lines 302-307). -/
structure oktaShimNew (E : Env) where
  cfg : Configuration
  client : APIClient
  ctx : E.Context
  cache : Cache

/-- The struct `oktaShimOld` (source lines 419-421). -/
structure oktaShimOld (E : Env) where
  client : E.OldClient

/-- A value of the interface `oktaShim`: one of its two implementations. -/
inductive oktaShim (E : Env) where
  | new (s : oktaShimNew E)
  | old (s : oktaShimOld E)

/-- Whether the shim is the new-generation adapter. -/
def oktaShim.isNew {E : Env} : oktaShim E → Bool
  | .new _ => true
  | .old _ => false

/-- Whether the shim is the legacy adapter. -/
def oktaShim.isOld {E : Env} : oktaShim E → Bool
  | .new _ => false
  | .old _ => true

/-- The method `Authorize(method, url)` of the SDK's strategies on the request
they were built with: the static-secret and bearer strategies add one
`Authorization` header and cannot fail; the other two derive their headers
through the collaborator, cache in hand. -/
def Authorization.Authorize (E : Env) (auth : Authorization) (cache : Cache)
    (req : Request E.URL) (method url : String) : Except String (Request E.URL) × Cache :=
  match auth with
  | .ssws token => (.ok { req with Header := req.Header.Add "Authorization" ("SSWS " ++ token) }, cache)
  | .bearer token => (.ok { req with Header := req.Header.Add "Authorization" ("Bearer " ++ token) }, cache)
  | a =>
    match E.derive a cache method url with
    | (.error err, cache1) => (.error err, cache1)
    | (.ok hs, cache1) => (.ok { req with Header := req.Header ++ hs }, cache1)

/-- The URL text `NewRequest` hands to `http.NewRequest` (source lines 314-316 and 338). -/
def requestURL (cfg : Configuration) (url : String) : String :=
  let url := if !HasPrefix url "/" then "/api/v1/" ++ url else url
  cfg.OrgUrl ++ url

/-- The type switch on the body (source lines 319-336): the bytes to send. -/
def encodeBody (E : Env) (body : Option (BodyArg E.Value)) : Except String (Option Bytes) :=
  match body with
  | none => .ok none
  | some (.bytes v) => .ok (some v)
  | some (.buffer v) => .ok (some v)
  | some (.value v) =>
    match E.jsonEncode v with
    | .error err => .error err
    | .ok b => .ok (some b)

/-- The switch on the authorization mode (source lines 349-381). -/
def selectAuthorization (cfg : Configuration) : Except String Authorization :=
  if cfg.AuthorizationMode = "SSWS" then .ok (.ssws cfg.Token)
  else if cfg.AuthorizationMode = "Bearer" then .ok (.bearer cfg.Token)
  else if cfg.AuthorizationMode = "PrivateKey" then
    .ok (.privateKey
      { PrivateKey := cfg.PrivateKey, PrivateKeyId := cfg.PrivateKeyId, ClientId := cfg.ClientId,
        OrgURL := cfg.OrgUrl, Scopes := cfg.Scopes, MaxRetries := cfg.MaxRetries,
        MaxBackoff := cfg.MaxBackoff })
  else if cfg.AuthorizationMode = "JWT" then
    .ok (.jwt
      { OrgURL := cfg.OrgUrl, Scopes := cfg.Scopes, ClientAssertion := cfg.ClientAssertion,
        MaxRetries := cfg.MaxRetries, MaxBackoff := cfg.MaxBackoff })
  else .error ("unknown authorization mode " ++ cfg.AuthorizationMode)

/-- The method `oktaShimNew.NewRequest` (source lines 313-396): the request or the
error, and the cache afterwards. -/
def oktaShimNew.NewRequest {E : Env} (new : oktaShimNew E) (method url : String)
    (body : Option (BodyArg E.Value)) : Except String (Request E.URL) × Cache :=
  match encodeBody E body with
  | .error err => (.error err, new.cache)
  | .ok buff =>
    let url := requestURL new.cfg url
    match httpNewRequest E method url buff with
    | .error err => (.error err, new.cache)
    | .ok req =>
      match selectAuthorization new.cfg with
      | .error err => (.error err, new.cache)
      | .ok auth =>
        match auth.Authorize E new.cache req "POST" url with
        | (.error err, cache) => (.error err, cache)
        | (.ok req, cache) =>
          let req := { req with Header := req.Header.Add "Accept" "application/json" }
          let req :=
            if body.isSome then { req with Header := req.Header.Set "Content-Type" "application/json" }
            else req
          (.ok req, cache)

/-- The outcome of `Do`: the two return values and the destination afterwards. -/
structure DoResult (E : Env) where
  result : Option HTTPResponse
  err : Option String
  v : E.Dest

/-- The method `oktaShimNew.Do` (source lines 398-417).  The error of
`io.ReadAll` is assigned and then overwritten by the one of `json.Unmarshal`. -/
def oktaShimNew.Do {E : Env} ( _new : oktaShimNew E) (req : Request E.URL) (v : E.Dest) :
    DoResult E :=
  match httpClientDo E req with
  | .error err => { result := none, err := some err, v := v }
  | .ok resp =>
    match resp.Body with
    | none => { result := none, err := none, v := v }
    | some body =>
      let bt := body.data
      let _err := body.readErr
      let (v1, err) := jsonUnmarshal E bt v
      match err with
      | some err => { result := none, err := some err, v := v1 }
      | none => { result := some resp, err := none, v := v1 }

/-- The method `oktaShimOld.NewRequest` (source lines 427-429). -/
def oktaShimOld.NewRequest {E : Env} (new : oktaShimOld E) (method url : String)
    (body : Option (BodyArg E.Value)) : Except String (Request E.URL) :=
  E.oldNewRequest new.client method url body

/-- The method `oktaShimOld.Do` (source lines 431-433). -/
def oktaShimOld.Do {E : Env} (new : oktaShimOld E) (req : Request E.URL) (v : E.Dest) :
    (Option HTTPResponse × Option String) × E.Dest :=
  E.oldDo new.client req v

/-- The method `Client` of both shims (source lines 309-311 and 423-425). -/
def oktaShim.Client {E : Env} : oktaShim E → Option APIClient × Option E.Context
  | .new s => (some s.client, some s.ctx)
  | .old _ => (none, none)

/-! ## Building the client from a configuration entry (source lines 435-484) -/

/-- The base domain both `OktaConfiguration` and `OktaClient` compute first
(source lines 436-444 and 455-463). -/
def resolveBaseURL (c : ConfigEntry) : String :=
  let baseURL := defaultBaseURL
  let baseURL :=
    match c.Production with
    | some production => if !production then previewBaseURL else baseURL
    | none => baseURL
  let baseURL := if c.BaseURL ≠ "" then c.BaseURL else baseURL
  baseURL

/-- The method `ConfigEntry.OktaConfiguration` (source lines 435-451). -/
def ConfigEntry.OktaConfiguration (E : Env) (c : ConfigEntry) : Except String Configuration :=
  let baseURL := resolveBaseURL c
  match NewConfiguration E [WithOrgUrl ("https://" ++ c.Org ++ "." ++ baseURL), WithToken c.Token] with
  | .error err => .error err
  | .ok cfg => .ok cfg

/-- The method `ConfigEntry.OktaClient` (source lines 453-484). -/
def ConfigEntry.OktaClient (E : Env) (c : ConfigEntry) (ctx : E.Context) :
    Except String (oktaShim E) :=
  let baseURL := resolveBaseURL c
  if c.Token ≠ "" then
    match NewConfiguration E [WithOrgUrl ("https://" ++ c.Org ++ "." ++ baseURL), WithToken c.Token] with
    | .error err => .error err
    | .ok cfg =>
      .ok (.new { cfg := cfg, client := NewAPIClient cfg, ctx := ctx,
                  cache := gocacheNew DefaultExpiration (1 * Second) })
  else
    match E.NewClientWithDomain c.Org baseURL "" with
    | .error err => .error err
    | .ok client => .ok (.old { client := client })

/-! ## The configuration path (source lines 127-294) -/

/-- The method `backend.Config` (source lines 127-152). -/
def Config (s : Storage) : Except String (Option ConfigEntry) :=
  match s.Get "config" with
  | .error err => .error err
  | .ok none => .ok none
  | .ok (some entry) =>
    match entry.DecodeJSON with
    | .error err => .error err
    | .ok result =>
      let result :=
        if result.TokenParams.TokenTTL = 0 ∧ result.TTL > 0 then
          { result with TokenParams := { result.TokenParams with TokenTTL := result.TTL } }
        else result
      let result :=
        if result.TokenParams.TokenMaxTTL = 0 ∧ result.MaxTTL > 0 then
          { result with TokenParams := { result.TokenParams with TokenMaxTTL := result.MaxTTL } }
        else result
      .ok (some result)

/-- The handler `backend.pathConfigRead` (source lines 154-192). -/
def pathConfigRead (E : Env) (req : LogicalRequest) : Option Response × Option String :=
  match Config req.Storage with
  | .error err => (none, some err)
  | .ok none => (none, none)
  | .ok (some cfg) =>
    let data : Data :=
      [("organization", .str cfg.Org), ("org_name", .str cfg.Org),
       ("bypass_okta_mfa", .bool cfg.BypassOktaMFA)]
    let data := PopulateTokenData E.Seconds cfg.TokenParams data
    let data := if cfg.BaseURL ≠ "" then data.set "base_url" (.str cfg.BaseURL) else data
    let data :=
      match cfg.Production with
      | some production => data.set "production" (.bool production)
      | none => data
    let data := if cfg.TTL > 0 then data.set "ttl" (.int (E.Seconds cfg.TTL)) else data
    let data := if cfg.MaxTTL > 0 then data.set "max_ttl" (.int (E.Seconds cfg.MaxTTL)) else data
    let resp : Response := { Data := some data, Warnings := [] }
    let resp := if cfg.BypassOktaMFA then { resp with Warnings := resp.Warnings ++ [bypassWarning] } else resp
    (some resp, none)

/-- The URL text `pathConfigWrite` hands to `url.Parse` (source line 230),
`fmt.Sprintf("https://%s,%s", cfg.Org, baseURL)`. -/
def checkedURL (org baseURL : String) : String := "https://" ++ org ++ "," ++ baseURL

/-- The outcome of `pathConfigWrite`: its two return values and the storage afterwards. -/
structure WriteResult where
  resp : Option Response
  err : Option String
  storage : Storage
  deriving DecidableEq, Repr

/-- The organisation step of `pathConfigWrite` (source lines 206-218): the entry
afterwards, or the error response for a creation without organisation. -/
def writeOrg (op : Operation) (cfg : ConfigEntry) (d : FieldData) : Except Response ConfigEntry :=
  let cfg := match d.org_name with
    | some org => { cfg with Org := org }
    | none => cfg
  let cfg :=
    if cfg.Org = "" then
      match d.organization with
      | some org => { cfg with Org := org }
      | none => cfg
    else cfg
  if cfg.Org = "" ∧ op = .CreateOperation then .error (ErrorResponse "org_name is missing")
  else .ok cfg

/-- The token step of `pathConfigWrite` (source lines 220-225). -/
def writeToken (cfg : ConfigEntry) (d : FieldData) : ConfigEntry :=
  match d.api_token with
  | some token => { cfg with Token := token }
  | none =>
    match d.token with
    | some token => { cfg with Token := token }
    | none => cfg

/-- The base URL step of `pathConfigWrite` (source lines 227-235): the entry
afterwards, or the error response when `url.Parse` refuses the checked text. -/
def writeBaseURL (E : Env) (cfg : ConfigEntry) (d : FieldData) : Except Response ConfigEntry :=
  match d.base_url with
  | some baseURL =>
    match urlParse E (checkedURL cfg.Org baseURL) with
    | .error err => .error (ErrorResponse ("Error parsing given base_url: " ++ err))
    | .ok _ => .ok { cfg with BaseURL := baseURL }
  | none => .ok cfg

/-- The production step of `pathConfigWrite` (source lines 237-248): the flag is
read only while no base URL is set, and cleared otherwise. -/
def writeProduction (cfg : ConfigEntry) (d : FieldData) : ConfigEntry :=
  if cfg.BaseURL = "" then
    match d.production with
    | some production => { cfg with Production := some production }
    | none => cfg
  else { cfg with Production := none }

/-- The MFA bypass step of `pathConfigWrite` (source lines 250-253). -/
def writeBypass (cfg : ConfigEntry) (d : FieldData) : ConfigEntry :=
  match d.bypass_okta_mfa with
  | some bypass => { cfg with BypassOktaMFA := bypass }
  | none => cfg

/-- The configuration entry `pathConfigWrite` has built when it reaches the
token fields (source lines 200-253), or the error response it returns early. -/
def writeFields (E : Env) (op : Operation) (cfg0 : Option ConfigEntry) (d : FieldData) :
    Except Response ConfigEntry :=
  let cfg := match cfg0 with
    | none => ConfigEntry.zero
    | some cfg => cfg
  match writeOrg op cfg d with
  | .error resp => .error resp
  | .ok cfg =>
    let cfg := writeToken cfg d
    match writeBaseURL E cfg d with
    | .error resp => .error resp
    | .ok cfg =>
      let cfg := writeProduction cfg d
      let cfg := writeBypass cfg d
      .ok cfg

/-- The token step of `pathConfigWrite` (source lines 255-268), the token helper
parsing the token fields and upgrading the two deprecated durations: the entry
afterwards, or the two values returned early. -/
def writeTokenFields (E : Env) (req : LogicalRequest) (cfg : ConfigEntry) (d : FieldData) :
    Except (Option Response × Option String) ConfigEntry :=
  match E.ParseTokenFields req d cfg.TokenParams with
  | .error err => .error (some (ErrorResponse err), some ErrInvalidRequest)
  | .ok tp =>
    match E.UpgradeValue d "ttl" "token_ttl" cfg.TTL tp.TokenTTL with
    | .error err => .error (some (ErrorResponse err), none)
    | .ok (ttl, tokenTTL) =>
      match E.UpgradeValue d "max_ttl" "token_max_ttl" cfg.MaxTTL tp.TokenMaxTTL with
      | .error err => .error (some (ErrorResponse err), none)
      | .ok (maxTTL, tokenMaxTTL) =>
        .ok { cfg with
                TTL := ttl, MaxTTL := maxTTL,
                TokenParams := { tp with TokenTTL := tokenTTL, TokenMaxTTL := tokenMaxTTL } }

/-- The handler `backend.pathConfigWrite` (source lines 194-285). -/
def pathConfigWrite (E : Env) (req : LogicalRequest) (d : FieldData) : WriteResult :=
  match Config req.Storage with
  | .error err => { resp := none, err := some err, storage := req.Storage }
  | .ok cfg0 =>
    match writeFields E req.Operation cfg0 d with
    | .error resp => { resp := some resp, err := none, storage := req.Storage }
    | .ok cfg =>
      match writeTokenFields E req cfg d with
      | .error (resp, err) => { resp := resp, err := err, storage := req.Storage }
      | .ok cfg =>
        match StorageEntryJSON cfg with
        | .error err => { resp := none, err := some err, storage := req.Storage }
        | .ok jsonCfg =>
          match req.Storage.Put "config" jsonCfg with
          | .error err => { resp := none, err := some err, storage := req.Storage }
          | .ok storage =>
            let resp : Option Response :=
              if cfg.BypassOktaMFA then some { Data := none, Warnings := [bypassWarning] }
              else none
            { resp := resp, err := none, storage := storage }

/-- The handler `backend.pathConfigExistenceCheck` (source lines 287-294). -/
def pathConfigExistenceCheck (req : LogicalRequest) : Except String Bool :=
  match Config req.Storage with
  | .error err => .error err
  | .ok cfg => .ok cfg.isSome

/-! ## The rule of the specification, and a concrete environment -/

/-- The base domain as the specification words it: `base_url` verbatim when set,
else the preview domain when the production flag is present and false, else the
production domain. -/
def specDomain (c : ConfigEntry) : String :=
  if c.BaseURL ≠ "" then c.BaseURL
  else if c.Production = some false then "oktapreview.com"
  else "okta.com"

/-- The origin as the specification words it, `https://{organization}.{domain}`. -/
def specOrigin (c : ConfigEntry) : String := "https://" ++ c.Org ++ "." ++ specDomain c

/-- A concrete environment for evaluating the definitions: URLs are kept as
their text and every text without a control character parses, the legacy client
records its organisation and domain, the decoder accepts the two bytes of an
empty JSON object and nothing else, durations are cut to whole seconds, and the
transport returns `transport`. -/
def sampleEnv (transport : Except String HTTPResponse) : Env :=
  { URL := String,
    OldClient := String × String,
    Context := Unit,
    Value := String,
    Dest := Bytes,
    parseRest := fun s => .ok s,
    NewClientWithDomain := fun org domain _ => .ok (org, domain),
    oldNewRequest := fun _ m u _ => .ok { Method := m, URL := u, Header := [], Body := none },
    oldDo := fun _ _ v => ((none, none), v),
    jsonEncode := fun s => .ok (s.data.map Char.toNat),
    jsonDecode := fun bt v =>
      if bt = [123, 125] then (bt, none) else (v, some "invalid character"),
    transport := fun _ => transport,
    Seconds := fun d => Int.tdiv d Second,
    derive := fun _ c _ _ => (.error "no credentials", c),
    removeEmptyPort := fun u => u,
    ParseTokenFields := fun _ _ tp => .ok tp,
    UpgradeValue := fun _ _ _ a b => .ok (a, b) }

/-- The entry of the scenario: organisation `acme`, token `tok123`. -/
def acmeEntry : ConfigEntry := { ConfigEntry.zero with Org := "acme", Token := "tok123" }

/-- The shim `OktaClient` builds for `acmeEntry`. -/
def acmeShim (transport : Except String HTTPResponse) : oktaShimNew (sampleEnv transport) :=
  { cfg := { defaultConfiguration with OrgUrl := "https://acme.okta.com", Token := "tok123" },
    client := NewAPIClient { defaultConfiguration with OrgUrl := "https://acme.okta.com", Token := "tok123" },
    ctx := (),
    cache := gocacheNew DefaultExpiration (1 * Second) }

/-- A request as `NewRequest` builds it for `GET users` on `acmeShim`. -/
def acmeRequest : Request String :=
  { Method := "GET", URL := "https://acme.okta.com/api/v1/users",
    Header := [("Authorization", "SSWS tok123"), ("Accept", "application/json")], Body := none }

/-- A store that holds an entry for `acme` whose production flag an earlier
write has set. -/
def priorStorage : Storage :=
  { entries := [("config", .json { ConfigEntry.zero with Org := "acme", Production := some true })],
    getErr := none, putErr := none }

/-- The field data of a write that supplies `base_url = example.com` and nothing else. -/
def baseURLWrite : FieldData :=
  { organization := none, org_name := none, token := none, api_token := none,
    base_url := some "example.com", production := none, bypass_okta_mfa := none, tokenRaw := [] }

/-! ## Theorems -/

/-- The domain the code computes is the one the specification words. -/
theorem resolveBaseURL_eq_specDomain (c : ConfigEntry) : resolveBaseURL c = specDomain c := by
  unfold resolveBaseURL specDomain defaultBaseURL previewBaseURL
  rcases c with ⟨tp, org, tok, bu, prod, ttl, mttl, byp⟩
  rcases prod with _ | (_ | _) <;> by_cases hb : bu = "" <;> simp [hb]

/-- What `NewConfiguration` returns for an origin and a token: the default
configuration with the two set, when `url.Parse` accepts the origin. -/
theorem NewConfiguration_org_token (E : Env) (u t : String) :
    NewConfiguration E [WithOrgUrl u, WithToken t]
      = match urlParse E u with
        | .error err => .error err
        | .ok _ => .ok { defaultConfiguration with OrgUrl := u, Token := t } := rfl

/-- A configuration that `NewConfiguration` returns for an origin and a token
holds them, in `SSWS` mode. -/
theorem NewConfiguration_ok (E : Env) (u t : String) (cfg : Configuration)
    (h : NewConfiguration E [WithOrgUrl u, WithToken t] = .ok cfg) :
    cfg = { defaultConfiguration with OrgUrl := u, Token := t } := by
  rw [NewConfiguration_org_token] at h
  split at h
  · cases h
  · simp only [Except.ok.injEq] at h
    exact h.symm

/-- What `OktaClient` returns, by the two cases of the token, with the origin
and the domain of the specification. -/
theorem origin_resolution_aux (E : Env) (c : ConfigEntry) (ctx : E.Context) :
    (c.Token ≠ "" →
      c.OktaClient E ctx
        = match NewConfiguration E [WithOrgUrl (specOrigin c), WithToken c.Token] with
          | .error err => .error err
          | .ok cfg =>
            .ok (.new { cfg := cfg, client := NewAPIClient cfg, ctx := ctx,
                        cache := gocacheNew DefaultExpiration (1 * Second) })) ∧
    (c.Token = "" →
      c.OktaClient E ctx
        = match E.NewClientWithDomain c.Org (specDomain c) "" with
          | .error err => .error err
          | .ok client => .ok (.old { client := client })) := by
  refine ⟨?_, ?_⟩
  · intro ht
    simp only [ConfigEntry.OktaClient, ne_eq, ht, not_false_eq_true, if_true, specOrigin,
      resolveBaseURL_eq_specDomain]
  · intro ht
    simp only [ConfigEntry.OktaClient, ht, ne_eq, not_true_eq_false, if_false,
      resolveBaseURL_eq_specDomain]

/-- A new-generation shim that `OktaClient` returns is built on the default
configuration with the origin of the specification and the token, and on a
fresh cache. -/
theorem OktaClient_new (E : Env) (c : ConfigEntry) (ctx : E.Context) (s : oktaShimNew E)
    (h : c.OktaClient E ctx = .ok (.new s)) :
    s.cfg = { defaultConfiguration with OrgUrl := specOrigin c, Token := c.Token } ∧
    s.cache = gocacheNew DefaultExpiration (1 * Second) := by
  by_cases ht : c.Token = ""
  · rw [(origin_resolution_aux E c ctx).2 ht] at h
    split at h <;> simp at h
  · rw [(origin_resolution_aux E c ctx).1 ht] at h
    cases hn : NewConfiguration E [WithOrgUrl (specOrigin c), WithToken c.Token] with
    | error e => simp [hn] at h
    | ok cfg =>
      have hcfg := NewConfiguration_ok E _ _ cfg hn
      simp only [hn, Except.ok.injEq, oktaShim.new.injEq] at h
      subst h
      exact ⟨hcfg, rfl⟩

/-- C1. Whenever `OktaClient` returns a shim, the shim is the new-generation
adapter exactly when the token is non-empty and the legacy adapter exactly when
the token is empty, and two entries with the same token get the same kind of
adapter whatever their other fields are. -/
theorem OktaClient_adapter_by_token (E : Env) (c : ConfigEntry) (ctx : E.Context)
    (s : oktaShim E) (h : c.OktaClient E ctx = .ok s) :
    (s.isNew = true ↔ c.Token ≠ "") ∧ (s.isOld = true ↔ c.Token = "") ∧
    (∀ (c2 : ConfigEntry) (ctx2 : E.Context) (s2 : oktaShim E),
      c2.Token = c.Token → c2.OktaClient E ctx2 = .ok s2 →
        s2.isNew = s.isNew ∧ s2.isOld = s.isOld) := by
  have key : ∀ (c : ConfigEntry) (ctx : E.Context) (s : oktaShim E),
      c.OktaClient E ctx = .ok s →
        s.isNew = decide (c.Token ≠ "") ∧ s.isOld = decide (c.Token = "") := by
    intro c ctx s h
    by_cases ht : c.Token = ""
    · rw [(origin_resolution_aux E c ctx).2 ht] at h
      split at h
      · cases h
      · cases h
        simp [oktaShim.isNew, oktaShim.isOld, ht]
    · rw [(origin_resolution_aux E c ctx).1 ht] at h
      split at h
      · cases h
      · cases h
        simp [oktaShim.isNew, oktaShim.isOld, ht]
  obtain ⟨h1, h2⟩ := key c ctx s h
  refine ⟨by simp [h1], by simp [h2], ?_⟩
  intro c2 ctx2 s2 htok h2ok
  obtain ⟨g1, g2⟩ := key c2 ctx2 s2 h2ok
  rw [g1, g2, h1, h2, htok]
  exact ⟨rfl, rfl⟩

/-- C1, at the scenario entry: the token `tok123` gives the new-generation adapter. -/
theorem OktaClient_adapter_by_token_witness :
    (acmeEntry.OktaClient (sampleEnv (.error "down")) () = .ok (.new (acmeShim (.error "down")))) ∧
    ((oktaShim.new (acmeShim (.error "down"))).isNew = true ↔ acmeEntry.Token ≠ "") :=
  ⟨rfl, (OktaClient_adapter_by_token (sampleEnv (.error "down")) acmeEntry ()
      (.new (acmeShim (.error "down"))) rfl).1⟩

/-- C2. `OktaConfiguration` and `OktaClient` resolve the same origin, the one
the specification words: both hand `https://{org}.{domain}` to the SDK's
`NewConfiguration` and return its error when it fails, every configuration they
return has that origin as its organisation URL, and `OktaClient` without a token
hands the organisation and the same domain to the legacy client. -/
theorem origin_resolution (E : Env) (c : ConfigEntry) (ctx : E.Context) :
    c.OktaConfiguration E
      = NewConfiguration E [WithOrgUrl (specOrigin c), WithToken c.Token] ∧
    (c.Token ≠ "" →
      c.OktaClient E ctx
        = match NewConfiguration E [WithOrgUrl (specOrigin c), WithToken c.Token] with
          | .error err => .error err
          | .ok cfg =>
            .ok (.new { cfg := cfg, client := NewAPIClient cfg, ctx := ctx,
                        cache := gocacheNew DefaultExpiration (1 * Second) })) ∧
    (c.Token = "" →
      c.OktaClient E ctx
        = match E.NewClientWithDomain c.Org (specDomain c) "" with
          | .error err => .error err
          | .ok client => .ok (.old { client := client })) ∧
    (∀ cfg, c.OktaConfiguration E = .ok cfg → cfg.OrgUrl = specOrigin c) ∧
    (∀ s : oktaShimNew E, c.OktaClient E ctx = .ok (.new s) → s.cfg.OrgUrl = specOrigin c) := by
  have h1 : c.OktaConfiguration E
      = NewConfiguration E [WithOrgUrl (specOrigin c), WithToken c.Token] := by
    simp only [ConfigEntry.OktaConfiguration, specOrigin, resolveBaseURL_eq_specDomain]
    split <;> rename_i heq <;> rw [heq]
  refine ⟨h1, (origin_resolution_aux E c ctx).1, (origin_resolution_aux E c ctx).2, ?_, ?_⟩
  · intro cfg hcfg
    rw [h1] at hcfg
    rw [NewConfiguration_ok E _ _ cfg hcfg]
  · intro s hs
    rw [(OktaClient_new E c ctx s hs).1]

/-- C2, at the scenario entry and at an entry with the production flag off:
the origins are `https://acme.okta.com` and `https://acme.oktapreview.com`. -/
theorem origin_resolution_witness :
    acmeEntry.OktaConfiguration (sampleEnv (.error "down"))
      = .ok { defaultConfiguration with OrgUrl := "https://acme.okta.com", Token := "tok123" } ∧
    ({ acmeEntry with Production := some false } : ConfigEntry).OktaConfiguration
        (sampleEnv (.error "down"))
      = .ok { defaultConfiguration with
                OrgUrl := "https://acme.oktapreview.com", Token := "tok123" } ∧
    (∀ cfg, acmeEntry.OktaConfiguration (sampleEnv (.error "down")) = .ok cfg →
      cfg.OrgUrl = specOrigin acmeEntry) :=
  ⟨rfl, rfl, (origin_resolution (sampleEnv (.error "down")) acmeEntry ()).2.2.2.1⟩

/-- A request that `http.NewRequest` returns carries the parse of the URL text,
its empty port removed, and the method it was asked for, `GET` standing in for
the empty method. -/
theorem httpNewRequest_ok (E : Env) (method url : String) (body : Option Bytes)
    (r : Request E.URL) (h : httpNewRequest E method url body = .ok r) :
    (∃ u, urlParse E url = .ok u ∧ r.URL = E.removeEmptyPort u) ∧
      r.Method = (if method = "" then "GET" else method) ∧
      r.Header = [] ∧ r.Body = body := by
  unfold httpNewRequest at h
  by_cases hv : validMethod (if method = "" then "GET" else method) = true
  · cases hu : urlParse E url with
    | error e => simp [hv, hu] at h
    | ok u =>
      simp only [hv, hu, Bool.not_true, Bool.false_eq_true, if_false] at h
      cases h
      exact ⟨⟨u, rfl, rfl⟩, rfl, rfl, rfl⟩
  · simp [hv] at h

/-- The strategies only touch the headers of the request. -/
theorem Authorize_ok (E : Env) (auth : Authorization) (cache : Cache) (req r : Request E.URL)
    (method url : String) (h : (auth.Authorize E cache req method url).1 = .ok r) :
    r.URL = req.URL ∧ r.Method = req.Method ∧ r.Body = req.Body := by
  cases auth with
  | ssws token => simp [Authorization.Authorize] at h; subst h; exact ⟨rfl, rfl, rfl⟩
  | bearer token => simp [Authorization.Authorize] at h; subst h; exact ⟨rfl, rfl, rfl⟩
  | privateKey c =>
    simp only [Authorization.Authorize] at h
    split at h
    · simp at h
    · simp at h; subst h; exact ⟨rfl, rfl, rfl⟩
  | jwt c =>
    simp only [Authorization.Authorize] at h
    split at h
    · simp at h
    · simp at h; subst h; exact ⟨rfl, rfl, rfl⟩

/-- A request that `NewRequest` returns was built by `http.NewRequest` from the
text `requestURL` and keeps that URL and method. -/
theorem NewRequest_ok (E : Env) (new : oktaShimNew E) (method path : String)
    (body : Option (BodyArg E.Value)) (req : Request E.URL)
    (h : (new.NewRequest method path body).1 = .ok req) :
    ∃ buff r0, httpNewRequest E method (requestURL new.cfg path) buff = .ok r0 ∧
      req.URL = r0.URL ∧ req.Method = r0.Method := by
  unfold oktaShimNew.NewRequest at h
  cases hb : encodeBody E body with
  | error e => simp [hb] at h
  | ok buff =>
    simp only [hb] at h
    cases hr : httpNewRequest E method (requestURL new.cfg path) buff with
    | error e => simp [hr] at h
    | ok r0 =>
      simp only [hr] at h
      cases ha : selectAuthorization new.cfg with
      | error e => simp [ha] at h
      | ok auth =>
        simp only [ha] at h
        cases hz : auth.Authorize E new.cache r0 "POST" (requestURL new.cfg path) with
        | mk res cache1 =>
          cases res with
          | error e => simp [hz] at h
          | ok r1 =>
            have h1 := Authorize_ok E auth new.cache r0 r1 "POST" (requestURL new.cfg path)
              (by rw [hz])
            simp only [hz] at h
            refine ⟨buff, r0, hr, ?_, ?_⟩
            · by_cases hbody : body.isSome = true
              · simp [hbody] at h; subst h; exact h1.1
              · simp [hbody] at h; subst h; exact h1.1
            · by_cases hbody : body.isSome = true
              · simp [hbody] at h; subst h; exact h1.2.1
              · simp [hbody] at h; subst h; exact h1.2.1

/-- C3. The URL of a request built by `NewRequest` is the URL that
`http.NewRequest` makes of the text `OrgUrl + "/api/v1/" + path` when the path
does not start with a slash, the API root being prefixed once, and of the text
`OrgUrl + path` when it does. -/
theorem NewRequest_url (E : Env) (new : oktaShimNew E) (method path : String)
    (body : Option (BodyArg E.Value)) (req : Request E.URL)
    (h : (new.NewRequest method path body).1 = .ok req) :
    (HasPrefix path "/" = false →
      requestURL new.cfg path = new.cfg.OrgUrl ++ "/api/v1/" ++ path ∧
      ∃ u, urlParse E (new.cfg.OrgUrl ++ "/api/v1/" ++ path) = .ok u ∧
        req.URL = E.removeEmptyPort u) ∧
    (HasPrefix path "/" = true →
      requestURL new.cfg path = new.cfg.OrgUrl ++ path ∧
      ∃ u, urlParse E (new.cfg.OrgUrl ++ path) = .ok u ∧ req.URL = E.removeEmptyPort u) := by
  obtain ⟨buff, r0, hr, hu, _⟩ := NewRequest_ok E new method path body req h
  obtain ⟨u, hp, hn⟩ := (httpNewRequest_ok E method _ buff r0 hr).1
  rw [← hu] at hn
  constructor
  · intro hrel
    have ht : requestURL new.cfg path = new.cfg.OrgUrl ++ "/api/v1/" ++ path := by
      simp [requestURL, hrel, String.append_assoc]
    exact ⟨ht, u, by rw [← ht]; exact hp, hn⟩
  · intro habs
    have ht : requestURL new.cfg path = new.cfg.OrgUrl ++ path := by
      simp [requestURL, habs]
    exact ⟨ht, u, by rw [← ht]; exact hp, hn⟩

/-- C3, at the scenario: `GET users` on the `acme` shim has the URL
`https://acme.okta.com/api/v1/users`. -/
theorem NewRequest_url_witness :
    ((acmeShim (.error "down")).NewRequest "GET" "users" none).1 = .ok acmeRequest ∧
    acmeRequest.URL = "https://acme.okta.com/api/v1/users" ∧
    requestURL (acmeShim (.error "down")).cfg "users"
      = "https://acme.okta.com" ++ "/api/v1/" ++ "users" :=
  ⟨rfl, rfl,
    ((NewRequest_url (sampleEnv (.error "down")) (acmeShim (.error "down")) "GET" "users"
      none acmeRequest rfl).1 (by decide)).1⟩

/-- The text `SSWS ` followed by a token contains the token. -/
theorem ssws_contains_token (t : String) : Contains ("SSWS " ++ t) t = true := by
  unfold Contains
  rw [String.data_append]
  exact decide_eq_true (List.suffix_append _ _).isInfix

/-- C5, as stated, fails: for the organisation `ac` line feed `me` the SDK
configuration is refused and `OktaClient` builds no shim; on the scenario shim
the path `users` followed by a line feed is relative, yet `NewRequest` returns
the error of `url.Parse` and no request; the method `G T` is refused as well;
and for the empty method the request built has the method `GET`, not the empty
one. -/
theorem NewRequest_control_character_fails :
    acmeEntry.Token ≠ "" ∧ acmeEntry.BaseURL = "" ∧ acmeEntry.Production = none ∧
    (∃ err, ({ acmeEntry with Org := "ac\nme" } : ConfigEntry).OktaClient
      (sampleEnv (.error "down")) () = .error err) ∧
    acmeEntry.OktaClient (sampleEnv (.error "down")) () = .ok (.new (acmeShim (.error "down"))) ∧
    HasPrefix "users\n" "/" = false ∧
    (∃ err, ((acmeShim (.error "down")).NewRequest "GET" "users\n" none).1 = .error err) ∧
    (∃ err, ((acmeShim (.error "down")).NewRequest "G T" "users" none).1 = .error err) ∧
    ((acmeShim (.error "down")).NewRequest "" "users" none).1 = .ok acmeRequest ∧
    acmeRequest.Method = "GET" := by
  refine ⟨by decide, rfl, rfl, ⟨_, rfl⟩, rfl, by decide, ⟨_, rfl⟩, ⟨_, rfl⟩, rfl, rfl⟩

/-- C5, amended. For an entry with a non-empty token, no base URL and no
production flag, whose origin `https://{org}.okta.com` `url.Parse` accepts,
`OktaClient` builds a new-generation shim in `SSWS` mode, and for every relative
path and every valid method for which `url.Parse` accepts
`https://{org}.okta.com/api/v1/{path}`, `NewRequest(m, p, nil)` succeeds with
that method and URL, one `Accept: application/json` header, no `Content-Type`
header and exactly one `Authorization` header, `SSWS` followed by the token. -/
theorem NewRequest_static_token (E : Env) (c : ConfigEntry) (ctx : E.Context)
    (m p : String) (u0 u : E.URL)
    (ht : c.Token ≠ "") (hb : c.BaseURL = "") (hprod : c.Production = none)
    (ho : urlParse E ("https://" ++ c.Org ++ ".okta.com") = .ok u0)
    (hp : HasPrefix p "/" = false) (hm : validMethod m = true)
    (hu : urlParse E ("https://" ++ c.Org ++ ".okta.com/api/v1/" ++ p) = .ok u) :
    ∃ s : oktaShimNew E, c.OktaClient E ctx = .ok (.new s) ∧
      s.cfg.AuthorizationMode = "SSWS" ∧
      ∃ req : Request E.URL, s.NewRequest m p none = (.ok req, s.cache) ∧
        req.Method = m ∧ req.URL = E.removeEmptyPort u ∧ req.Body = none ∧
        req.Header = [("Authorization", "SSWS " ++ c.Token), ("Accept", "application/json")] ∧
        req.Header.Values "Accept" = ["application/json"] ∧
        req.Header.Values "Content-Type" = [] ∧
        req.Header.Values "Authorization" = ["SSWS " ++ c.Token] ∧
        Contains ("SSWS " ++ c.Token) c.Token = true := by
  have hdom : specDomain c = "okta.com" := by simp [specDomain, hb, hprod]
  have horigin : specOrigin c = "https://" ++ c.Org ++ ".okta.com" := by
    simp only [specOrigin, hdom]
    apply String.ext
    simp
  have hne : m ≠ "" := by
    intro h0
    subst h0
    simp [validMethod] at hm
  have hurl : ∀ cfg : Configuration, cfg.OrgUrl = specOrigin c →
      requestURL cfg p = "https://" ++ c.Org ++ ".okta.com/api/v1/" ++ p := by
    intro cfg hcfg
    simp only [requestURL, hp, hcfg, specOrigin, hdom]
    apply String.ext
    simp
  have hclient : c.OktaClient E ctx
      = .ok (.new
          { cfg := { defaultConfiguration with OrgUrl := specOrigin c, Token := c.Token },
            client := NewAPIClient
              { defaultConfiguration with OrgUrl := specOrigin c, Token := c.Token },
            ctx := ctx,
            cache := gocacheNew DefaultExpiration (1 * Second) }) := by
    rw [(origin_resolution_aux E c ctx).1 ht, NewConfiguration_org_token, horigin, ho]
  refine ⟨_, hclient, rfl, ?_⟩
  refine ⟨{ Method := m, URL := E.removeEmptyPort u,
            Header := [("Authorization", "SSWS " ++ c.Token), ("Accept", "application/json")],
            Body := none }, ?_, rfl, rfl, rfl, rfl, ?_, ?_, ?_, ssws_contains_token c.Token⟩
  · simp only [oktaShimNew.NewRequest, encodeBody, hurl, httpNewRequest, hne, if_false, hm,
      Bool.not_true, Bool.false_eq_true, hu, selectAuthorization, defaultConfiguration, if_true,
      Authorization.Authorize, Header.Add, List.nil_append, List.cons_append, Option.isSome_none]
  · simp [Header.Values]
  · simp [Header.Values]
  · simp [Header.Values]

/-- C5 amended, at the scenario: `GET users` for organisation `acme` and token `tok123`. -/
theorem NewRequest_static_token_witness :
    ∃ s : oktaShimNew (sampleEnv (.error "down")),
      acmeEntry.OktaClient (sampleEnv (.error "down")) () = .ok (.new s) ∧
      s.cfg.AuthorizationMode = "SSWS" ∧
      ∃ req : Request String, s.NewRequest "GET" "users" none = (.ok req, s.cache) ∧
        req.Method = "GET" ∧ req.URL = "https://acme.okta.com/api/v1/users" ∧ req.Body = none ∧
        req.Header = [("Authorization", "SSWS " ++ acmeEntry.Token), ("Accept", "application/json")] ∧
        req.Header.Values "Accept" = ["application/json"] ∧
        req.Header.Values "Content-Type" = [] ∧
        req.Header.Values "Authorization" = ["SSWS " ++ acmeEntry.Token] ∧
        Contains ("SSWS " ++ acmeEntry.Token) acmeEntry.Token = true :=
  NewRequest_static_token (sampleEnv (.error "down")) acmeEntry () "GET" "users"
    "https://acme.okta.com" "https://acme.okta.com/api/v1/users"
    (by decide) rfl rfl rfl (by decide) (by decide) rfl

/-- The client never hands out a nil body. -/
theorem httpClientDo_body (E : Env) (req : Request E.URL) (resp : HTTPResponse)
    (h : httpClientDo E req = .ok resp) : resp.Body ≠ none := by
  unfold httpClientDo at h
  split at h
  · cases h
  · rename_i r _
    split at h
    · rename_i b hb
      simp only [Except.ok.injEq] at h
      subst h
      simp [hb]
    · split at h
      · cases h
      · simp only [Except.ok.injEq] at h
        subst h
        simp

/-- What the client makes of a transport response that has a nil body and
announces no content: the same response with an empty body. -/
theorem httpClientDo_nil_body (E : Env) (req : Request E.URL) (resp : HTTPResponse)
    (ht : E.transport req = .ok resp) (hb : resp.Body = none) (hc : resp.ContentLength ≤ 0) :
    httpClientDo E req = .ok { resp with Body := some { data := [], readErr := none } } := by
  have hn : ¬ (resp.ContentLength > 0 ∧ req.Method ≠ "HEAD") := by
    intro h
    omega
  simp only [httpClientDo, ht, hb, hn, if_false]

/-- What the client makes of a transport response that has a body: the response. -/
theorem httpClientDo_some_body (E : Env) (req : Request E.URL) (resp : HTTPResponse)
    (body : Body) (ht : E.transport req = .ok resp) (hb : resp.Body = some body) :
    httpClientDo E req = .ok resp := by
  simp only [httpClientDo, ht, hb]

/-- The outcomes of `Do`, by what the client returns. -/
theorem Do_cases (E : Env) (new : oktaShimNew E) (req : Request E.URL) (v : E.Dest) :
    (∀ e, httpClientDo E req = .error e →
      new.Do req v = { result := none, err := some e, v := v }) ∧
    (∀ resp body e, httpClientDo E req = .ok resp → resp.Body = some body →
      (jsonUnmarshal E body.data v).2 = some e →
      new.Do req v = { result := none, err := some e, v := (jsonUnmarshal E body.data v).1 }) ∧
    (∀ resp body, httpClientDo E req = .ok resp → resp.Body = some body →
      (jsonUnmarshal E body.data v).2 = none →
      new.Do req v = { result := some resp, err := none, v := (jsonUnmarshal E body.data v).1 }) := by
  refine ⟨?_, ?_, ?_⟩
  · intro e h
    simp [oktaShimNew.Do, h]
  · intro resp body e h hb hd
    cases hj : jsonUnmarshal E body.data v with
    | mk v1 err =>
      rw [hj] at hd
      simp only at hd
      subst hd
      simp [oktaShimNew.Do, h, hb, hj]
  · intro resp body h hb hd
    cases hj : jsonUnmarshal E body.data v with
    | mk v1 err =>
      rw [hj] at hd
      simp only at hd
      subst hd
      simp [oktaShimNew.Do, h, hb, hj]

/-- The error half of the dispatcher: `Do` returns an error exactly when the
client fails or the body fails to decode; a client failure is returned as it is
with a nil result, and a body that decodes gives the response with a nil error. -/
theorem Do_error_exactly (E : Env) (new : oktaShimNew E) (req : Request E.URL) (v : E.Dest) :
    ((new.Do req v).err ≠ none ↔
      ((∃ e, httpClientDo E req = .error e) ∨
        ∃ resp body e, httpClientDo E req = .ok resp ∧ resp.Body = some body ∧
          (jsonUnmarshal E body.data v).2 = some e)) ∧
    (∀ e, httpClientDo E req = .error e →
      (new.Do req v).result = none ∧ (new.Do req v).err = some e) ∧
    (∀ resp body, httpClientDo E req = .ok resp → resp.Body = some body →
      (jsonUnmarshal E body.data v).2 = none →
      (new.Do req v).result = some resp ∧ (new.Do req v).err = none) := by
  obtain ⟨c1, c3, c4⟩ := Do_cases E new req v
  refine ⟨?_, ?_, ?_⟩
  · cases ht : httpClientDo E req with
    | error e =>
      rw [c1 e ht]
      simp
    | ok resp =>
      cases hb : resp.Body with
      | none => exact absurd hb (httpClientDo_body E req resp ht)
      | some body =>
        cases hd : (jsonUnmarshal E body.data v).2 with
        | none =>
          rw [c4 resp body ht hb hd]
          simp [hb, hd]
        | some e =>
          rw [c3 resp body e ht hb hd]
          simp [hb, hd]
  · intro e ht
    rw [c1 e ht]
    exact ⟨rfl, rfl⟩
  · intro resp body ht hb hd
    rw [c4 resp body ht hb hd]
    exact ⟨rfl, rfl⟩

/-- C6, the defect. `Do` never returns `(nil, nil)`: the client puts an empty
reader in place of a nil body, so the guard on a nil body never fires, and a
response without a body, whether the transport gives it a nil body or an empty
one, reaches `json.Unmarshal` with no bytes and comes back as a nil result with
the decode error. -/
theorem Do_bodiless_response_decode_error (E : Env) (new : oktaShimNew E)
    (req : Request E.URL) (v : E.Dest) :
    ¬ ((new.Do req v).result = none ∧ (new.Do req v).err = none) ∧
    (∀ resp, E.transport req = .ok resp → resp.Body = none → resp.ContentLength ≤ 0 →
      (new.Do req v).result = none ∧
        (new.Do req v).err = some "unexpected end of JSON input") ∧
    (∀ resp e, E.transport req = .ok resp → resp.Body = some { data := [], readErr := e } →
      (new.Do req v).result = none ∧
        (new.Do req v).err = some "unexpected end of JSON input") := by
  obtain ⟨c1, c3, c4⟩ := Do_cases E new req v
  have hempty : (jsonUnmarshal E [] v).2 = some "unexpected end of JSON input" := by
    simp [jsonUnmarshal]
  refine ⟨?_, ?_, ?_⟩
  · rintro ⟨hr, he⟩
    cases ht : httpClientDo E req with
    | error e =>
      rw [c1 e ht] at he
      simp at he
    | ok resp =>
      cases hb : resp.Body with
      | none => exact absurd hb (httpClientDo_body E req resp ht)
      | some body =>
        cases hd : (jsonUnmarshal E body.data v).2 with
        | none =>
          rw [c4 resp body ht hb hd] at hr
          simp at hr
        | some e =>
          rw [c3 resp body e ht hb hd] at he
          simp at he
  · intro resp ht hb hc
    rw [c3 _ { data := [], readErr := none } _ (httpClientDo_nil_body E req resp ht hb hc) rfl
      hempty]
    exact ⟨rfl, rfl⟩
  · intro resp e ht hb
    rw [c3 _ { data := [], readErr := e } _ (httpClientDo_some_body E req resp _ ht hb) hb
      hempty]
    exact ⟨rfl, rfl⟩

/-- C6, at the failing input: the transport answers `204 No Content` with a nil
body; `Do` returns a nil result with the decode error, not `(nil, nil)`. -/
theorem Do_bodiless_response_decode_error_witness :
    ((acmeShim (.ok { StatusCode := 204, ContentLength := 0, Body := none })).Do
        acmeRequest []).result = none ∧
    ((acmeShim (.ok { StatusCode := 204, ContentLength := 0, Body := none })).Do
        acmeRequest []).err = some "unexpected end of JSON input" :=
  (Do_bodiless_response_decode_error _
    (acmeShim (.ok { StatusCode := 204, ContentLength := 0, Body := none }))
    acmeRequest []).2.1 _ rfl rfl (by decide)

/-- C7, as stated, fails: on a transport that answers with the bytes `1 2 3`,
which do not decode, `Do` returns the decode error with a nil first value, not
with the response. -/
theorem Do_decode_failure_returns_nil :
    ((acmeShim (.ok { StatusCode := 200, ContentLength := 3,
                      Body := some { data := [1, 2, 3], readErr := none } })).Do
        acmeRequest []).result = none ∧
    ((acmeShim (.ok { StatusCode := 200, ContentLength := 3,
                      Body := some { data := [1, 2, 3], readErr := none } })).Do
        acmeRequest []).err = some "invalid character" :=
  ⟨rfl, rfl⟩

/-- C7, amended. When the transport succeeds and the body fails to decode, `Do`
returns the decode error together with a nil first value. -/
theorem Do_decode_failure (E : Env) (new : oktaShimNew E) (req : Request E.URL) (v : E.Dest)
    (resp : HTTPResponse) (body : Body) (e : String)
    (ht : httpClientDo E req = .ok resp) (hb : resp.Body = some body)
    (hd : (jsonUnmarshal E body.data v).2 = some e) :
    (new.Do req v).result = none ∧ (new.Do req v).err = some e := by
  rw [(Do_cases E new req v).2.1 resp body e ht hb hd]
  exact ⟨rfl, rfl⟩

/-- C7 amended, on a transport that answers with bytes that do not decode. -/
theorem Do_decode_failure_witness :
    (jsonUnmarshal
        (sampleEnv (.ok { StatusCode := 200, ContentLength := 3,
                          Body := some { data := [1, 2, 3], readErr := none } }))
        [1, 2, 3] []).2 = some "invalid character" ∧
    ((acmeShim (.ok { StatusCode := 200, ContentLength := 3,
                      Body := some { data := [1, 2, 3], readErr := none } })).Do
        acmeRequest []).result = none ∧
    ((acmeShim (.ok { StatusCode := 200, ContentLength := 3,
                      Body := some { data := [1, 2, 3], readErr := none } })).Do
        acmeRequest []).err = some "invalid character" :=
  ⟨rfl, Do_decode_failure _
    (acmeShim (.ok { StatusCode := 200, ContentLength := 3,
                     Body := some { data := [1, 2, 3], readErr := none } }))
    acmeRequest [] _ { data := [1, 2, 3], readErr := none } "invalid character" rfl rfl rfl⟩

/-- C8, the defect. When reading a present body fails and the bytes read before
the failure decode, `Do` returns the response with a nil error: the read error
is overwritten by the result of `json.Unmarshal` and never reaches the caller. -/
theorem Do_read_error_lost (E : Env) (new : oktaShimNew E) (req : Request E.URL) (v : E.Dest)
    (resp : HTTPResponse) (body : Body) (e : String)
    (ht : httpClientDo E req = .ok resp) (hb : resp.Body = some body)
    ( _hr : body.readErr = some e) (hd : (jsonUnmarshal E body.data v).2 = none) :
    (new.Do req v).result = some resp ∧ (new.Do req v).err = none := by
  rw [(Do_cases E new req v).2.2 resp body ht hb hd]
  exact ⟨rfl, rfl⟩

/-- C8, at the failing input: the body yields the two bytes of an empty JSON
object and then fails with `unexpected EOF`; `Do` reports no error. -/
theorem Do_read_error_lost_witness :
    ({ data := [123, 125], readErr := some "unexpected EOF" } : Body).readErr = some "unexpected EOF" ∧
    ((acmeShim (.ok { StatusCode := 200, ContentLength := 10,
                      Body := some { data := [123, 125], readErr := some "unexpected EOF" } })).Do
        acmeRequest []).result
      = some { StatusCode := 200, ContentLength := 10,
               Body := some { data := [123, 125], readErr := some "unexpected EOF" } } ∧
    ((acmeShim (.ok { StatusCode := 200, ContentLength := 10,
                      Body := some { data := [123, 125], readErr := some "unexpected EOF" } })).Do
        acmeRequest []).err = none :=
  ⟨rfl, Do_read_error_lost _
    (acmeShim (.ok { StatusCode := 200, ContentLength := 10,
                     Body := some { data := [123, 125], readErr := some "unexpected EOF" } }))
    acmeRequest [] _ { data := [123, 125], readErr := some "unexpected EOF" } "unexpected EOF"
    rfl rfl rfl rfl⟩

/-- What a fresh cache holds after one `Set`: the item alone. -/
theorem fresh_cache_Set (de ci now : Int) (k x : String) (d : Int) :
    ((gocacheNew de ci).Set now k x d).items
      = [(k, { Object := x,
               Expiration :=
                 if (if d = DefaultExpiration then (gocacheNew de ci).defaultExpiration else d) > 0
                 then now + (if d = DefaultExpiration then (gocacheNew de ci).defaultExpiration
                             else d)
                 else 0 })] := by
  simp [Cache.Set, gocacheNew]

/-- Sweeps leave an empty cache empty. -/
theorem sweeps_nil_items (ts : List Int) (c : Cache) (h : c.items = []) :
    (c.sweeps ts).items = [] := by
  induction ts generalizing c with
  | nil => simpa [Cache.sweeps] using h
  | cons t ts ih =>
    have h1 : (c.DeleteExpired t).items = [] := by simp [Cache.DeleteExpired, h]
    simpa [Cache.sweeps] using ih (c.DeleteExpired t) h1

/-- Sweeps at instants at which the only item has not expired leave it in place. -/
theorem sweeps_keep_item (ts : List Int) (c : Cache) (k : String) (item : Item)
    (h : c.items = [(k, item)])
    (hk : ∀ t ∈ ts, ¬ (item.Expiration > 0 ∧ t > item.Expiration)) :
    (c.sweeps ts).items = [(k, item)] := by
  induction ts generalizing c with
  | nil => simpa [Cache.sweeps] using h
  | cons t ts ih =>
    have ht := hk t (List.mem_cons_self t ts)
    have h1 : (c.DeleteExpired t).items = [(k, item)] := by
      have ht2 : item.Expiration ≤ 0 ∨ t ≤ item.Expiration := by omega
      simp [Cache.DeleteExpired, h, ht2]
    have h2 := ih (c.DeleteExpired t) h1 (fun t2 ht2 => hk t2 (List.mem_cons_of_mem t ht2))
    simpa [Cache.sweeps] using h2

/-- Sweeps leave the only item of a cache in place or remove it. -/
theorem sweeps_item_or_nil (ts : List Int) (c : Cache) (k : String) (item : Item)
    (h : c.items = [(k, item)]) :
    (c.sweeps ts).items = [(k, item)] ∨ (c.sweeps ts).items = [] := by
  induction ts generalizing c with
  | nil => left; simpa [Cache.sweeps] using h
  | cons t ts ih =>
    by_cases ht : item.Expiration > 0 ∧ t > item.Expiration
    · right
      have h1 : (c.DeleteExpired t).items = [] := by
        simp [Cache.DeleteExpired, h, ht]
      simpa [Cache.sweeps] using sweeps_nil_items ts (c.DeleteExpired t) h1
    · have h1 : (c.DeleteExpired t).items = [(k, item)] := by
        have ht2 : item.Expiration ≤ 0 ∨ t ≤ item.Expiration := by omega
        simp [Cache.DeleteExpired, h, ht2]
      simpa [Cache.sweeps] using ih (c.DeleteExpired t) h1

/-- What `Get` answers on a cache that holds one item under the key. -/
theorem Get_single (c : Cache) (later : Int) (k : String) (item : Item)
    (h : c.items = [(k, item)]) :
    c.Get later k
      = if item.Expiration > 0 ∧ later > item.Expiration then none else some item.Object := by
  simp [Cache.Get, h, List.lookup]

/-- What `Get` answers on an empty cache. -/
theorem Get_nil (c : Cache) (later : Int) (k : String) (h : c.items = []) :
    c.Get later k = none := by
  simp [Cache.Get, h, List.lookup]

/-- C9, as stated, fails: in the cache of the scenario shim an entry stored at
instant `0` under the default expiry is still served two seconds later, also
after the janitor has swept at one second. -/
theorem cache_entry_survives_one_second :
    acmeEntry.OktaClient (sampleEnv (.error "down")) () = .ok (.new (acmeShim (.error "down"))) ∧
    (((acmeShim (.error "down")).cache.Set 0 "key" "value" DefaultExpiration).Get
        (2 * Second) "key") = some "value" ∧
    ((((acmeShim (.error "down")).cache.Set 0 "key" "value" DefaultExpiration).DeleteExpired
        (1 * Second)).Get (2 * Second) "key") = some "value" := by
  refine ⟨rfl, by decide, by decide⟩

/-- C9, amended. The cache `OktaClient` creates has no default expiration and a
janitor period of one second.  An entry stored under the default expiry, or with
any other duration that is not positive, is served at every instant, whatever
sweeps of the janitor have happened since it was stored.  An entry stored at an
instant `now` with a positive duration `d` of its own is served at an instant
`later`, after any sweeps that happened up to `later`, exactly when `later` is
at most `now + d`. -/
theorem cache_default_entries_never_expire (E : Env) (c : ConfigEntry) (ctx : E.Context)
    (s : oktaShimNew E) (h : c.OktaClient E ctx = .ok (.new s)) :
    s.cache.defaultExpiration = NoExpiration ∧ s.cache.cleanupInterval = 1 * Second ∧
    (∀ (now later d : Int) (sweeps : List Int) (k x : String), d ≤ 0 →
      ((s.cache.Set now k x d).sweeps sweeps).Get later k = some x) ∧
    (∀ (now later d : Int) (sweeps : List Int) (k x : String), 0 ≤ now → 0 < d →
      (∀ t ∈ sweeps, t ≤ later) →
      (((s.cache.Set now k x d).sweeps sweeps).Get later k = none ↔ now + d < later)) := by
  rw [(OktaClient_new E c ctx s h).2]
  refine ⟨rfl, rfl, ?_, ?_⟩
  · intro now later d sweeps k x hd
    have hitems : ((gocacheNew DefaultExpiration (1 * Second)).Set now k x d).items
        = [(k, { Object := x, Expiration := 0 })] := by
      rw [fresh_cache_Set]
      by_cases h0 : d = 0
      · simp [DefaultExpiration, h0, gocacheNew, NoExpiration]
      · have hneg : ¬ d > 0 := by omega
        simp [DefaultExpiration, h0, hneg]
    have hkeep := sweeps_keep_item sweeps _ k _ hitems (fun t _ => by simp)
    rw [Get_single _ later k _ hkeep]
    simp
  · intro now later d sweeps k x hnow hd hsw
    have hd0 : d ≠ 0 := by omega
    have hitems : ((gocacheNew DefaultExpiration (1 * Second)).Set now k x d).items
        = [(k, { Object := x, Expiration := now + d })] := by
      rw [fresh_cache_Set]
      simp [DefaultExpiration, hd0, hd]
    by_cases hlate : now + d < later
    · rcases sweeps_item_or_nil sweeps _ k _ hitems with h1 | h1
      · rw [Get_single _ later k _ h1]
        have hpos : (0 : Int) < now + d := by omega
        simp [hlate, hpos]
      · rw [Get_nil _ later k h1]
        simp [hlate]
    · have hkeep := sweeps_keep_item sweeps _ k _ hitems (fun t ht => by
        have := hsw t ht
        simp only [not_and, not_lt]
        intro _
        omega)
      rw [Get_single _ later k _ hkeep]
      have hnl : ¬ later > now + d := by omega
      simp [hlate, hnl]

/-- C9 amended, at the scenario shim: an entry stored at instant `0` under the
default expiry is served one hour later, after sweeps at one, two and three seconds. -/
theorem cache_default_entries_never_expire_witness :
    acmeEntry.OktaClient (sampleEnv (.error "down")) () = .ok (.new (acmeShim (.error "down"))) ∧
    (acmeShim (.error "down")).cache.defaultExpiration = NoExpiration ∧
    (acmeShim (.error "down")).cache.cleanupInterval = 1 * Second ∧
    ((((acmeShim (.error "down")).cache.Set 0 "key" "value" DefaultExpiration).sweeps
        [1 * Second, 2 * Second, 3 * Second]).Get (3600 * Second) "key") = some "value" :=
  ⟨rfl,
    (cache_default_entries_never_expire (sampleEnv (.error "down")) acmeEntry ()
      (acmeShim (.error "down")) rfl).1,
    (cache_default_entries_never_expire (sampleEnv (.error "down")) acmeEntry ()
      (acmeShim (.error "down")) rfl).2.1,
    (cache_default_entries_never_expire (sampleEnv (.error "down")) acmeEntry ()
      (acmeShim (.error "down")) rfl).2.2.1 0 (3600 * Second) DefaultExpiration
      [1 * Second, 2 * Second, 3 * Second] "key" "value" (by decide)⟩

/-- C10, the defect. For organisation `acme` and base URL `example.com` the text
`pathConfigWrite` checks is `https://acme,example.com`, joined by a comma, while
the origin `OktaConfiguration` builds the client against is
`https://acme.example.com`. -/
theorem checkedURL_differs_from_origin :
    checkedURL "acme" "example.com" = "https://acme,example.com" ∧
    ({ ConfigEntry.zero with Org := "acme", BaseURL := "example.com" } : ConfigEntry).OktaConfiguration
        (sampleEnv (.error "down"))
      = .ok { defaultConfiguration with OrgUrl := "https://acme.example.com", Token := "" } ∧
    checkedURL "acme" "example.com"
      ≠ specOrigin { ConfigEntry.zero with Org := "acme", BaseURL := "example.com" } := by
  refine ⟨by decide, rfl, by decide⟩


/-- Filtering a key out of a map leaves the other keys as they were. -/
theorem lookup_filter_ne {β : Type} (m : List (String × β)) (k k2 : String) (h : k2 ≠ k) :
    (m.filter (fun kv => !(kv.1 == k))).lookup k2 = m.lookup k2 := by
  induction m with
  | nil => rfl
  | cons a m ih =>
    obtain ⟨a1, a2⟩ := a
    by_cases ha : a1 = k
    · subst ha
      have hk : (k2 == a1) = false := by simpa using h
      simp [List.filter_cons, List.lookup_cons, hk, ih]
    · by_cases hk : k2 = a1
      · subst hk
        simp [List.filter_cons, List.lookup_cons, ha]
      · have hk2 : (k2 == a1) = false := by simpa using hk
        simp [List.filter_cons, List.lookup_cons, ha, hk2, ih]

/-- Reading a key of a map after an assignment. -/
theorem Data_get_set (m : Data) (k k2 : String) (v : Value) :
    (m.set k v).get k2 = if k2 = k then some v else m.get k2 := by
  unfold Data.set Data.get
  by_cases h : k2 = k
  · subst h
    simp [List.lookup_cons]
  · have hk : (k2 == k) = false := by simpa using h
    simp [List.lookup_cons, hk, h, lookup_filter_ne m k k2 h]

/-- The token keys leave the keys `base_url` and `production` as they were. -/
theorem PopulateTokenData_frame (seconds : Int → Int) (t : TokenParams) (m : Data) :
    (PopulateTokenData seconds t m).get "base_url" = m.get "base_url" ∧
    (PopulateTokenData seconds t m).get "production" = m.get "production" := by
  simp [PopulateTokenData, Data_get_set]

/-- What `pathConfigRead` answers for a stored entry, on the keys `base_url` and `production`. -/
theorem pathConfigRead_keys (E : Env) (req : LogicalRequest) (cfg : ConfigEntry)
    (h : Config req.Storage = .ok (some cfg)) :
    ∃ resp data, pathConfigRead E req = (some resp, none) ∧ resp.Data = some data ∧
      data.get "base_url" = (if cfg.BaseURL ≠ "" then some (.str cfg.BaseURL) else none) ∧
      data.get "production" = cfg.Production.map Value.bool := by
  unfold pathConfigRead
  rw [h]
  have hf1 : ∀ byp : Bool, (PopulateTokenData E.Seconds cfg.TokenParams
      [("organization", .str cfg.Org), ("org_name", .str cfg.Org),
       ("bypass_okta_mfa", .bool byp)]).get "base_url" = none := by
    intro byp
    rw [(PopulateTokenData_frame _ _ _).1]
    rfl
  have hf2 : ∀ byp : Bool, (PopulateTokenData E.Seconds cfg.TokenParams
      [("organization", .str cfg.Org), ("org_name", .str cfg.Org),
       ("bypass_okta_mfa", .bool byp)]).get "production" = none := by
    intro byp
    rw [(PopulateTokenData_frame _ _ _).2]
    rfl
  by_cases hby : cfg.BypassOktaMFA = true <;> simp only [hby] <;>
    refine ⟨_, _, rfl, rfl, ?_, ?_⟩ <;>
    cases hp : cfg.Production <;> by_cases hb : cfg.BaseURL = "" <;>
    by_cases ht : cfg.TTL > 0 <;> by_cases hm : cfg.MaxTTL > 0 <;>
    simp [hb, ht, hm, Data_get_set, hf1, hf2]

/-- A write that supplies a non-empty base URL and gets past the field checks has
stored it in the entry and cleared the production flag. -/
theorem writeFields_base_url (E : Env) (op : Operation) (cfg0 : Option ConfigEntry)
    (d : FieldData) (b : String) (cfg : ConfigEntry)
    (hbase : d.base_url = some b) (hne : b ≠ "")
    (h : writeFields E op cfg0 d = .ok cfg) :
    cfg.BaseURL = b ∧ cfg.Production = none := by
  unfold writeFields at h
  simp only at h
  split at h
  · cases h
  · split at h
    · cases h
    · rename_i cfg1 _ cfg2 hc
      simp only [Except.ok.injEq] at h
      subst h
      have h2 : cfg2.BaseURL = b := by
        unfold writeBaseURL at hc
        simp only [hbase] at hc
        split at hc
        · cases hc
        · simp only [Except.ok.injEq] at hc
          subst hc
          rfl
      have h3 : (writeProduction cfg2 d).BaseURL = b ∧ (writeProduction cfg2 d).Production = none := by
        unfold writeProduction
        simp [h2, hne]
      unfold writeBypass
      cases d.bypass_okta_mfa <;> exact h3

/-- The token step leaves the base URL and the production flag as they were. -/
theorem writeTokenFields_frame (E : Env) (req : LogicalRequest) (cfg cfg2 : ConfigEntry)
    (d : FieldData) (h : writeTokenFields E req cfg d = .ok cfg2) :
    cfg2.BaseURL = cfg.BaseURL ∧ cfg2.Production = cfg.Production := by
  unfold writeTokenFields at h
  split at h
  · cases h
  · split at h
    · cases h
    · split at h
      · cases h
      · simp only [Except.ok.injEq] at h
        subst h
        exact ⟨rfl, rfl⟩

/-- A conditional that fails on one side only fails with that side. -/
theorem ite_error_eq {ε α : Type} {c : Prop} [Decidable c] {a r : ε} {b : α}
    (h : (if c then Except.error a else Except.ok b) = .error r) : r = a := by
  split at h
  · simp only [Except.error.injEq] at h
    exact h.symm
  · cases h

/-- An early return of the field checks is an error response. -/
theorem writeFields_error (E : Env) (op : Operation) (cfg0 : Option ConfigEntry)
    (d : FieldData) (r : Response) (h : writeFields E op cfg0 d = .error r) :
    ∃ text, r = ErrorResponse text := by
  unfold writeFields at h
  simp only at h
  split at h
  · rename_i r1 h1
    simp only [Except.error.injEq] at h
    subst h
    exact ⟨_, ite_error_eq h1⟩
  · split at h
    · rename_i r1 h1
      simp only [Except.error.injEq] at h
      subst h
      unfold writeBaseURL at h1
      split at h1
      · split at h1
        · simp only [Except.error.injEq] at h1
          exact ⟨_, h1.symm⟩
        · cases h1
      · cases h1
    · cases h

/-- An early return of the token step carries an error or an error response. -/
theorem writeTokenFields_error (E : Env) (req : LogicalRequest) (cfg : ConfigEntry)
    (d : FieldData) (r : Option Response) (e : Option String)
    (h : writeTokenFields E req cfg d = .error (r, e)) :
    e ≠ none ∨ ∃ text, r = some (ErrorResponse text) := by
  unfold writeTokenFields at h
  split at h
  · simp only [Except.error.injEq, Prod.mk.injEq] at h
    left
    rw [← h.2]
    simp
  · split at h
    · simp only [Except.error.injEq, Prod.mk.injEq] at h
      right
      exact ⟨_, h.1.symm⟩
    · split at h
      · simp only [Except.error.injEq, Prod.mk.injEq] at h
        right
        exact ⟨_, h.1.symm⟩
      · cases h

/-- A write that returns no error and no error response has put an entry whose
base URL and production flag are those the field checks left. -/
theorem pathConfigWrite_success (E : Env) (req : LogicalRequest) (d : FieldData)
    (herr : (pathConfigWrite E req d).err = none)
    (hresp : ∀ text, (pathConfigWrite E req d).resp ≠ some (ErrorResponse text)) :
    ∃ cfg0 cfgW cfg, Config req.Storage = .ok cfg0 ∧
      writeFields E req.Operation cfg0 d = .ok cfgW ∧
      cfg.BaseURL = cfgW.BaseURL ∧ cfg.Production = cfgW.Production ∧
      req.Storage.Put "config" (.json cfg) = .ok (pathConfigWrite E req d).storage := by
  unfold pathConfigWrite at herr hresp ⊢
  cases hc : Config req.Storage with
  | error e => simp [hc] at herr
  | ok cfg0 =>
    simp only [hc] at herr hresp ⊢
    cases hw : writeFields E req.Operation cfg0 d with
    | error r =>
      obtain ⟨text, ht⟩ := writeFields_error E _ cfg0 d r hw
      simp only [hw] at hresp
      exact absurd (by rw [ht]) (hresp text)
    | ok cfgW =>
      simp only [hw] at herr hresp ⊢
      cases ht : writeTokenFields E req cfgW d with
      | error re =>
        obtain ⟨r, e⟩ := re
        simp only [ht] at herr hresp
        rcases writeTokenFields_error E req cfgW d r e ht with h1 | ⟨text, h2⟩
        · exact absurd herr h1
        · exact absurd h2 (hresp text)
      | ok cfg =>
        obtain ⟨f1, f2⟩ := writeTokenFields_frame E req cfgW cfg d ht
        simp only [ht, StorageEntryJSON] at herr hresp ⊢
        cases hp : req.Storage.Put "config" (.json cfg) with
        | error e => simp [hp] at herr
        | ok st => exact ⟨cfg0, cfgW, cfg, rfl, hw, f1, f2, by simp [hp]⟩

/-- Reading back what a successful `Put` stored. -/
theorem Config_after_Put (s s2 : Storage) (cfg : ConfigEntry) (cfg0 : Option ConfigEntry)
    (hc : Config s = .ok cfg0) (hp : s.Put "config" (.json cfg) = .ok s2) :
    ∃ cfg2, Config s2 = .ok (some cfg2) ∧ cfg2.BaseURL = cfg.BaseURL ∧
      cfg2.Production = cfg.Production := by
  have hg : s.getErr = none := by
    unfold Config Storage.Get at hc
    cases hge : s.getErr with
    | none => rfl
    | some e => simp [hge] at hc
  unfold Storage.Put at hp
  cases hpe : s.putErr with
  | some e => simp [hpe] at hp
  | none =>
    simp only [hpe, Except.ok.injEq] at hp
    subst hp
    unfold Config Storage.Get
    simp only [hg, List.lookup_cons, beq_self_eq_true, StorageEntry.DecodeJSON]
    refine ⟨_, rfl, ?_, ?_⟩
    · split <;> split <;> rfl
    · split <;> split <;> rfl

/-- C4. After a successful write that supplies a non-empty base URL `b`, whatever
was stored before, the stored entry has base URL `b` and no production flag, and
`pathConfigRead` answers with `base_url = b` and without the key `production`. -/
theorem write_read_base_url (E : Env) (req : LogicalRequest) (d : FieldData) (b : String)
    (hbase : d.base_url = some b) (hne : b ≠ "")
    (herr : (pathConfigWrite E req d).err = none)
    (hresp : ∀ text, (pathConfigWrite E req d).resp ≠ some (ErrorResponse text)) :
    (∃ cfg, Config (pathConfigWrite E req d).storage = .ok (some cfg) ∧
      cfg.BaseURL = b ∧ cfg.Production = none) ∧
    ∃ resp data,
      pathConfigRead E { Operation := .ReadOperation, Storage := (pathConfigWrite E req d).storage }
        = (some resp, none) ∧
      resp.Data = some data ∧ data.get "base_url" = some (.str b) ∧
      data.get "production" = none := by
  obtain ⟨cfg0, cfgW, cfg, hc, hw, h1, h2, hp⟩ := pathConfigWrite_success E req d herr hresp
  obtain ⟨w1, w2⟩ := writeFields_base_url E _ cfg0 d b cfgW hbase hne hw
  obtain ⟨cfg2, hc2, g1, g2⟩ := Config_after_Put _ _ cfg cfg0 hc hp
  have hb2 : cfg2.BaseURL = b := by rw [g1, h1, w1]
  have hp2 : cfg2.Production = none := by rw [g2, h2, w2]
  refine ⟨⟨cfg2, hc2, hb2, hp2⟩, ?_⟩
  obtain ⟨resp, data, r1, r2, r3, r4⟩ :=
    pathConfigRead_keys E
      { Operation := .ReadOperation, Storage := (pathConfigWrite E req d).storage } cfg2 hc2
  refine ⟨resp, data, r1, r2, ?_, ?_⟩
  · rw [r3, hb2]
    simp [hne]
  · rw [r4, hp2]
    rfl

/-- C4, on a store whose entry has the production flag set: after the write of
`base_url = example.com` the read answers with that base URL and no `production` key. -/
theorem write_read_base_url_witness :
    pathConfigRead (sampleEnv (.error "down"))
        { Operation := .ReadOperation, Storage := priorStorage }
      = (some { Data := some
                  ((PopulateTokenData (fun d => Int.tdiv d Second) ConfigEntry.zero.TokenParams
                      [("organization", .str "acme"), ("org_name", .str "acme"),
                       ("bypass_okta_mfa", .bool false)]).set "production" (.bool true)),
                Warnings := [] }, none) ∧
    ∃ resp data,
      pathConfigRead (sampleEnv (.error "down"))
          { Operation := .ReadOperation,
            Storage := (pathConfigWrite (sampleEnv (.error "down"))
              { Operation := .UpdateOperation, Storage := priorStorage } baseURLWrite).storage }
        = (some resp, none) ∧
      resp.Data = some data ∧ data.get "base_url" = some (.str "example.com") ∧
      data.get "production" = none :=
  have hnone : (pathConfigWrite (sampleEnv (.error "down"))
      { Operation := .UpdateOperation, Storage := priorStorage } baseURLWrite).resp = none := rfl
  ⟨rfl,
    (write_read_base_url (sampleEnv (.error "down"))
      { Operation := .UpdateOperation, Storage := priorStorage } baseURLWrite "example.com"
      rfl (by decide) rfl
      (fun text h => Option.noConfusion (hnone.symm.trans h))).2⟩

/-- When `url.Parse` refuses the checked text, the write returns an error
response and leaves the storage as it was. -/
theorem pathConfigWrite_base_url_refused (E : Env) (req : LogicalRequest) (d : FieldData)
    (cfg0 : Option ConfigEntry) (cfg1 : ConfigEntry) (b e : String)
    (hc : Config req.Storage = .ok cfg0)
    (ho : writeOrg req.Operation (cfg0.getD ConfigEntry.zero) d = .ok cfg1)
    (hb : d.base_url = some b)
    (hu : urlParse E (checkedURL cfg1.Org b) = .error e) :
    pathConfigWrite E req d
      = { resp := some (ErrorResponse ("Error parsing given base_url: " ++ e)), err := none,
          storage := req.Storage } := by
  have ht : (writeToken cfg1 d).Org = cfg1.Org := by
    unfold writeToken
    cases d.api_token <;> cases d.token <;> rfl
  have hw : writeFields E req.Operation cfg0 d
      = .error (ErrorResponse ("Error parsing given base_url: " ++ e)) := by
    cases cfg0 <;> simp only [Option.getD] at ho <;>
      simp only [writeFields, ho, writeBaseURL, hb, ht, hu]
  simp only [pathConfigWrite, hc, hw]

end Okta
